import Mathlib

/-
  A shallow embedding of the diesel prototype's type-level schema and query
  model (src/src/lib.rs and the spec of its core modules), together with
  proofs of the spec's claims about signatures, selection, joins, decoding
  and the execution layer.
-/

namespace Diesel

/-- The closed vocabulary of base SQL type tags used by the source
(`Serial`, `VarChar`, `Integer`, `SmallInt`, `BigInt` appear in lib.rs). -/
inductive BaseTag
  | serial
  | integer
  | bigInt
  | smallInt
  | varChar
  deriving DecidableEq, Repr

/-- Modelled from the spec: the SqlType model of the missing `types` module.
A type is a base tag or a base tag wrapped in `Nullable`; nullability is part
of the type identity. -/
inductive SqlType
  | base (t : BaseTag)
  | nullable (t : BaseTag)
  deriving DecidableEq, Repr

/-- Whether a SqlType permits SQL NULL. -/
def SqlType.isNullable : SqlType → Bool
  | .base _ => false
  | .nullable _ => true

/-- Modelled from the spec: a Column of the missing `query_source` module.
It records its owning table's name, its own name, and its SqlType. -/
structure Column where
  table : String
  name : String
  ty : SqlType
  deriving DecidableEq, Repr

/-- Modelled from the spec: a Table of the missing `query_source` module.
It owns an ordered sequence of columns; the order defines the default
projection order and tuple positions. -/
structure Table where
  name : String
  columns : List Column
  deriving DecidableEq, Repr

/-- The `users` table exactly as declared by the `table!` invocation in
lib.rs: `id -> Serial, name -> VarChar, age -> Nullable<SmallInt>`. -/
def usersTable : Table :=
  { name := "users"
    columns :=
      [ { table := "users", name := "id", ty := .base .serial }
      , { table := "users", name := "name", ty := .base .varChar }
      , { table := "users", name := "age", ty := .nullable .smallInt } ] }

/-- The `posts` table exactly as declared by the `table!` invocation in
lib.rs: `id -> Serial, user_id -> Integer, title -> VarChar`. -/
def postsTable : Table :=
  { name := "posts"
    columns :=
      [ { table := "posts", name := "id", ty := .base .serial }
      , { table := "posts", name := "user_id", ty := .base .integer }
      , { table := "posts", name := "title", ty := .base .varChar } ] }

/-- Modelled from the spec: the Query Source algebra of the missing
`query_source` module — a table, a projection to an explicit column list,
a raw-SQL projection with a caller-declared SqlType, or an inner join. -/
inductive QuerySource
  | table (t : Table)
  | selection (src : QuerySource) (cols : List Column)
  | selectSqlSrc (src : QuerySource) (fragment : String) (declared : SqlType)
  | join (l r : QuerySource) (onSql : String)
  deriving DecidableEq, Repr

/-- Modelled from the spec: the output signature of a Query Source — the
ordered tuple of SqlTypes a row from it contains. A table contributes its
columns' types in declaration order, a selection the listed columns' types
in the order given, a raw-SQL selection exactly the caller-declared type,
and a join the concatenation of its sides' signatures, left first. -/
def signature : QuerySource → List SqlType
  | .table t => t.columns.map (fun c => c.ty)
  | .selection _ cols => cols.map (fun c => c.ty)
  | .selectSqlSrc _ _ declared => [declared]
  | .join l r _ => signature l ++ signature r

/-- Modelled from the spec: the lineage of a Query Source — the names of the
tables it draws from (a join contributes both sides). -/
def tableLineage : QuerySource → List String
  | .table t => [t.name]
  | .selection src _ => tableLineage src
  | .selectSqlSrc src _ _ => tableLineage src
  | .join l r _ => tableLineage l ++ tableLineage r

/-- Modelled from the spec: the `select` operation. Every referenced column
must belong to a table in the source's lineage; an out-of-lineage column is
rejected at construction time (the Rust source rejects it at type-check
time), so no ill-formed Query Source value ever exists. -/
def select (src : QuerySource) (cols : List Column) : Option QuerySource :=
  if ∀ c ∈ cols, c.table ∈ tableLineage src then
    some (.selection src cols)
  else
    Option.none

/-- Modelled from the spec: the `select_sql` escape hatch — the caller
asserts the resulting SqlType and the fragment is trusted. -/
def selectSql (src : QuerySource) (fragment : String) (declared : SqlType) :
    QuerySource :=
  .selectSqlSrc src fragment declared

/-- Modelled from the spec: render the projection list of a Query Source.
A table lists its columns in declaration order, a selection lists the chosen
columns in the order given, a raw-SQL selection inserts its fragment
verbatim, and a join concatenates left then right. -/
def selectClause : QuerySource → String
  | .table t => String.intercalate ", " (t.columns.map (fun c => c.name))
  | .selection _ cols => String.intercalate ", " (cols.map (fun c => c.name))
  | .selectSqlSrc _ fragment _ => fragment
  | .join l r _ => selectClause l ++ ", " ++ selectClause r

/-- Modelled from the spec: render the FROM/JOIN clause of a Query Source.
A table renders as its name, a selection leaves its parent's clause
unchanged, and a join renders an INNER JOIN with its equality predicate. -/
def fromClause : QuerySource → String
  | .table t => t.name
  | .selection src _ => fromClause src
  | .selectSqlSrc src _ _ => fromClause src
  | .join l r onSql =>
      fromClause l ++ " INNER JOIN " ++ fromClause r ++ " ON " ++ onSql

/-- Modelled from the spec: render a full Query Source to SQL text. -/
def toSql (q : QuerySource) : String :=
  "SELECT " ++ selectClause q ++ " FROM " ++ fromClause q

/-- Modelled from the spec: one raw column value of a Row of the missing
`row` module — either SQL NULL or the value's text representation. -/
abbrev RawValue := Option String

/-- Modelled from the spec: a Row is ordinal access to raw values. -/
abbrev Row := List RawValue

/-- A decoded native value: integers, strings, and the absent/present pair
for nullable columns (Rust's `Option`). -/
inductive Value
  | vInt (n : Int)
  | vStr (s : String)
  | vNone
  | vSome (v : Value)
  deriving DecidableEq, Repr

/-- The numeric value of a decimal digit character, if it is one, read off
its code point (48 is the code point of the zero digit). -/
def digitVal (c : Char) : Option Nat :=
  let n := c.toNat
  if 48 ≤ n ∧ n ≤ 57 then some (n - 48) else Option.none

/-- Accumulate a run of decimal digits left to right; any non-digit makes
the parse fail. -/
def parseDigits : List Char → Nat → Option Nat
  | [], acc => some acc
  | c :: cs, acc =>
      match digitVal c with
      | some d => parseDigits cs (acc * 10 + d)
      | Option.none => Option.none

/-- Parse an optionally negated run of decimal digits as an integer; the
empty string and any non-digit character fail. -/
def parseInt (s : String) : Option Int :=
  match s.data with
  | [] => Option.none
  | '-' :: cs =>
      match cs with
      | [] => Option.none
      | _ => (parseDigits cs 0).map (fun n => -(n : Int))
  | cs => (parseDigits cs 0).map (fun n => (n : Int))

/-- Modelled from the spec: decode one non-null raw value at a base tag
(the `FromSql` instances of the missing `types` module). Integer tags parse
the text as an integer; `VarChar` takes the text itself. -/
def decodeBase : BaseTag → String → Except String Value
  | .varChar, s => .ok (.vStr s)
  | _, s =>
      match parseInt s with
      | some n => .ok (.vInt n)
      | Option.none => .error ("could not parse integer from " ++ s)

/-- Modelled from the spec: decode one raw value at a SqlType. NULL at a
`Nullable` type decodes to the absent value; NULL at a non-nullable type is
a decode error, never a silent default. -/
def decodeValue : SqlType → RawValue → Except String Value
  | .nullable _, Option.none => .ok .vNone
  | .nullable b, some s => (decodeBase b s).map .vSome
  | .base _, Option.none => .error "unexpected NULL for non-nullable column"
  | .base b, some s => decodeBase b s

/-- Modelled from the spec: decode a row's raw values against an output
signature, ordinally and in order; an arity mismatch is a decode error. -/
def decodeValues : List SqlType → Row → Except String (List Value)
  | [], [] => .ok []
  | ty :: tys, v :: row =>
      match decodeValue ty v with
      | .error m => .error m
      | .ok x =>
          match decodeValues tys row with
          | .error m => .error m
          | .ok xs => .ok (x :: xs)
  | _, _ => .error "row arity does not match signature"

/-- A decoding target: a bare scalar for a single column, a native tuple, a
declared struct with fields in order (the `queriable!` form of lib.rs), or a
pair of targets (the `(Post, User)` instance of lib.rs lines 93-105). -/
inductive Target
  | scalar (ty : SqlType)
  | tupleT (tys : List SqlType)
  | structT (name : String) (tys : List SqlType)
  | pairT (a b : Target)
  deriving DecidableEq, Repr

/-- The arity of a decoding target: how many raw columns it consumes. -/
def arity : Target → Nat
  | .scalar _ => 1
  | .tupleT tys => tys.length
  | .structT _ tys => tys.length
  | .pairT a b => arity a + arity b

/-- The output signature a decoding target is declared against. -/
def targetSig : Target → List SqlType
  | .scalar ty => [ty]
  | .tupleT tys => tys
  | .structT _ tys => tys
  | .pairT a b => targetSig a ++ targetSig b

/-- A decoded result: a bare scalar, a tuple, a struct built field-wise in
order, or a pair. -/
inductive Decoded
  | scalarD (v : Value)
  | tupleD (vs : List Value)
  | structD (name : String) (vs : List Value)
  | pairD (a b : Decoded)
  deriving DecidableEq, Repr

/-- The `build` operation of the Queriable contract (lib.rs lines 99-104
for the pair case; scalar/tuple/struct cases modelled from the spec): a
scalar consumes exactly one raw value, tuple and struct decode the row
ordinally, and a pair partitions the row by its first component's arity and
builds each side from its slice. -/
def build : Target → Row → Except String Decoded
  | .scalar ty, [v] => (decodeValue ty v).map .scalarD
  | .scalar _, _ => .error "row arity does not match signature"
  | .tupleT tys, row => (decodeValues tys row).map .tupleD
  | .structT n tys, row => (decodeValues tys row).map (.structD n)
  | .pairT a b, row =>
      (build a (row.take (arity a))).bind fun x =>
        (build b (row.drop (arity a))).map (.pairD x)

/-- Modelled from the spec: the error taxonomy of the missing `result`
module — connection, database and decode errors are distinct kinds. -/
inductive QueryError
  | connection (msg : String)
  | database (msg : String)
  | decode (msg : String)
  deriving DecidableEq, Repr

/-- Modelled from the spec: `query_all` of the missing `connection` module.
A driver failure surfaces as a database error for the whole call; on
success each returned record is decoded independently, one decode per
record, in the order the driver returned them, each element carrying its
own per-row decode outcome. -/
def queryAll (dbRes : Except String (List Row)) (t : Target) :
    Except QueryError (List (Except String Decoded)) :=
  match dbRes with
  | .error m => .error (.database m)
  | .ok rows => .ok (rows.map (build t))

/-- Modelled from the spec: `query_one` — the first element of
`query_all`'s sequence; an empty result set is the distinct "no rows"
outcome `ok none`, a decode failure on the first row is a decode error. -/
def queryOne (dbRes : Except String (List Row)) (t : Target) :
    Except QueryError (Option Decoded) :=
  match queryAll dbRes t with
  | .error e => .error e
  | .ok seq =>
      match seq.head? with
      | Option.none => .ok Option.none
      | some (.error m) => .error (.decode m)
      | some (.ok v) => .ok (some v)

/-- Modelled from the spec: a deterministic snapshot of the external
driver's behaviour — the rows each rendered SQL text returns while the
stored data is unchanged. -/
abbrev DB := List (String × List Row)

/-- Modelled from the spec: the external driver's `execute_raw` — an
unknown statement is a database-layer failure. -/
def execRaw (db : DB) (sql : String) : Except String (List Row) :=
  match db.lookup sql with
  | some rows => .ok rows
  | Option.none => .error "statement rejected by database"

/-- Modelled from the spec: `query_all` through a Connection — renders the
Query Source, sends it through the driver, and returns the decoded
sequence together with the database state, which a query never mutates. -/
def connQueryAll (db : DB) (q : QuerySource) (t : Target) :
    Except QueryError (List (Except String Decoded)) × DB :=
  (queryAll (execRaw db (toSql q)) t, db)

/-- Modelled from the spec: the database layer's NOT NULL enforcement when
inserting a row — a NULL raw value at a non-nullable column (or an arity
mismatch) is rejected with a database error, never replaced by a default. -/
def insertRow (t : Table) (row : Row) : Except QueryError Row :=
  if row.length ≠ t.columns.length then
    .error (.database "insert arity does not match table")
  else if (t.columns.zip row).any
      (fun p => !(p.1.ty.isNullable) && p.2.isNone) then
    .error (.database "null value in column violates not-null constraint")
  else
    .ok row

/-- The `id` column of `users` (lib.rs `table!`). -/
def usersIdCol : Column := { table := "users", name := "id", ty := .base .serial }

/-- The `name` column of `users` (lib.rs `table!`). -/
def usersNameCol : Column :=
  { table := "users", name := "name", ty := .base .varChar }

/-- The `age` column of `users` (lib.rs `table!`). -/
def usersAgeCol : Column :=
  { table := "users", name := "age", ty := .nullable .smallInt }

/-- The `id` column of `posts` (lib.rs `table!`). -/
def postsIdCol : Column := { table := "posts", name := "id", ty := .base .serial }

/-- The decoding target of the `Post` struct (lib.rs `queriable!`). -/
def postTarget : Target :=
  .structT "Post" [.base .serial, .base .integer, .base .varChar]

/-- The decoding target of the `User` struct (lib.rs `queriable!`). -/
def userTarget : Target :=
  .structT "User" [.base .serial, .base .varChar, .nullable .smallInt]

/-- The spec-side constructor a struct decode applies on top of a tuple
decode: take the tuple's values and wrap them with the struct's field-order
constructor. -/
def structOfTuple (n : String) : Decoded → Decoded
  | .tupleD vs => .structD n vs
  | d => d

/-- C7: a `select_sql` source's output signature is exactly the
caller-declared SqlType regardless of the fragment, and rendering inserts
the fragment verbatim as the projection list. -/
theorem selectSql_signature_verbatim (src : QuerySource) (fragment : String)
    (declared : SqlType) :
    signature (selectSql src fragment declared) = [declared] ∧
    selectClause (selectSql src fragment declared) = fragment ∧
    toSql (selectSql src fragment declared) =
      "SELECT " ++ fragment ++ " FROM " ++ fromClause src :=
  ⟨rfl, rfl, rfl⟩

/-- C8: running `query_all` through a Connection leaves the database state
unchanged, and a second run of the same Query Source over that unchanged
state yields an equal decoded sequence. -/
theorem connQueryAll_deterministic (db : DB) (q : QuerySource) (t : Target) :
    (connQueryAll db q t).2 = db ∧
    (connQueryAll ((connQueryAll db q t).2) q t).1 = (connQueryAll db q t).1 :=
  ⟨rfl, rfl⟩

/-- C10: decoding a row into a declared struct target is exactly the tuple
decode over the same signature followed by the struct's field-order
constructor, so the two targets agree field-wise on every row. -/
theorem struct_decode_is_tuple_decode (n : String) (tys : List SqlType)
    (row : Row) :
    build (.structT n tys) row =
      (build (.tupleT tys) row).map (structOfTuple n) := by
  show (decodeValues tys row).map (.structD n) =
    ((decodeValues tys row).map .tupleD).map (structOfTuple n)
  cases decodeValues tys row <;> rfl

/-- C6: `query_all` decodes each returned record independently: the result
for the rows before a bad row is exactly their own decodes, the element at
the bad row's position is exactly that row's decode, and prior elements are
unaffected by it. -/
theorem queryAll_per_row (t : Target) (pre post : List Row) (bad : Row) :
    queryAll (.ok (pre ++ bad :: post)) t =
      .ok (pre.map (build t) ++ build t bad :: post.map (build t)) ∧
    (pre.map (build t) ++ build t bad :: post.map (build t)).take pre.length
      = pre.map (build t) ∧
    (pre.map (build t) ++ build t bad :: post.map (build t))[pre.length]?
      = some (build t bad) := by
  refine ⟨by simp [queryAll], ?_, ?_⟩
  · rw [← List.length_map pre (build t)]
    exact List.take_left _ _
  · rw [List.getElem?_append_right (by simp)]
    simp

/-- C1: a join's output signature is its left source's signature followed by
its right source's, and decoding a joined row into a pair builds the first
component from the left signature's slice of the row and the second from
the right slice. -/
theorem join_signature_pair_decode (l r : QuerySource) (onSql : String)
    (a b : Target) (rowL rowR : Row) (h : rowL.length = arity a) :
    signature (.join l r onSql) = signature l ++ signature r ∧
    build (.pairT a b) (rowL ++ rowR) =
      (build a rowL).bind fun x => (build b rowR).map (.pairD x) := by
  refine ⟨rfl, ?_⟩
  show (build a ((rowL ++ rowR).take (arity a))).bind
      (fun x => (build b ((rowL ++ rowR).drop (arity a))).map
        (Decoded.pairD x)) = _
  rw [← h, List.take_left, List.drop_left]

/-- Witness for C1: the posts-join-users row of the `belongs_to` test:
the pair decode of the concatenated row is the Post decode of the posts
slice paired with the User decode of the users slice. -/
theorem join_signature_pair_decode_witness :
    build (.pairT postTarget userTarget)
        ([some "1", some "1", some "Hello"] ++
          [some "1", some "Sean", Option.none]) =
      (build postTarget [some "1", some "1", some "Hello"]).bind fun x =>
        (build userTarget [some "1", some "Sean", Option.none]).map
          (.pairD x) :=
  (join_signature_pair_decode (.table postsTable) (.table usersTable)
    "users.id = posts.user_id" postTarget userTarget
    [some "1", some "1", some "Hello"] [some "1", some "Sean", Option.none]
    (by decide)).2

/-- C3: referencing a column outside the source's lineage is rejected at
construction time: a successfully constructed selection only ever contains
in-lineage columns, and any out-of-lineage column makes construction fail,
so no such query ever reaches rendering or execution. -/
theorem select_lineage_static (src : QuerySource) (cols : List Column) :
    (∀ q, select src cols = some q →
      ∀ c ∈ cols, c.table ∈ tableLineage src) ∧
    ((∃ c ∈ cols, c.table ∉ tableLineage src) →
      select src cols = Option.none) := by
  constructor
  · intro q hq c hc
    unfold select at hq
    split at hq
    · exact (by assumption : ∀ c ∈ cols, c.table ∈ tableLineage src) c hc
    · cases hq
  · intro hbad
    unfold select
    split
    · obtain ⟨c, hc, hnot⟩ := hbad
      exact absurd ((by assumption : ∀ c ∈ cols, c.table ∈ tableLineage src)
        c hc) hnot
    · rfl

/-- Witness for C3: selecting `posts.id` from `users` (the commented-out
ill-typed line of the `with_safe_select` test) fails to construct. -/
theorem select_lineage_static_witness :
    select (.table usersTable) [postsIdCol] = Option.none :=
  (select_lineage_static (.table usersTable) [postsIdCol]).2
    ⟨postsIdCol, by decide, by decide⟩

/-- C9: a selection of exactly one column has the single column's SqlType
as its whole signature, the scalar target for it decodes a row to the bare
native value of that type, and a bare scalar is never the one-element
tuple value. -/
theorem single_column_scalar (src : QuerySource) (c : Column)
    (q : QuerySource) (h : select src [c] = some q) (v : RawValue) :
    signature q = [c.ty] ∧
    build (.scalar c.ty) [v] = (decodeValue c.ty v).map Decoded.scalarD ∧
    ∀ w, Decoded.scalarD w ≠ Decoded.tupleD [w] := by
  have hq : q = .selection src [c] := by
    unfold select at h
    split at h
    · exact (Option.some.inj h).symm
    · cases h
  subst hq
  refine ⟨rfl, rfl, ?_⟩
  intro w hw
  cases hw

/-- Witness for C9: `users.select(id)` of the `with_safe_select` test has
signature `[Serial]` and its scalar decode of a raw `"1"` is the bare
integer value 1. -/
theorem single_column_scalar_witness :
    signature (QuerySource.selection (.table usersTable) [usersIdCol]) =
      [SqlType.base .serial] ∧
    build (.scalar usersIdCol.ty) [some "1"] =
      (decodeValue usersIdCol.ty (some "1")).map Decoded.scalarD :=
  ⟨(single_column_scalar (.table usersTable) usersIdCol
      (.selection (.table usersTable) [usersIdCol]) (by decide) (some "1")).1,
    (single_column_scalar (.table usersTable) usersIdCol
      (.selection (.table usersTable) [usersIdCol]) (by decide)
      (some "1")).2.1⟩

/-- C5: `query_one` surfaces a database failure unchanged, returns the
distinct "no rows" outcome on an empty sequence, returns exactly the first
element of `query_all`'s sequence when one exists, turns a first-row decode
failure into a decode error, and the error kinds are distinct from each
other and from the "no rows" outcome. -/
theorem queryOne_first_of_queryAll (dbRes : Except String (List Row))
    (t : Target) :
    (∀ e, queryAll dbRes t = .error e → queryOne dbRes t = .error e) ∧
    (∀ seq, queryAll dbRes t = .ok seq →
      (seq.head? = Option.none → queryOne dbRes t = .ok Option.none) ∧
      (∀ v, seq.head? = some (.ok v) → queryOne dbRes t = .ok (some v)) ∧
      (∀ m, seq.head? = some (.error m) →
        queryOne dbRes t = .error (.decode m))) ∧
    (∀ m mm, QueryError.database m ≠ QueryError.decode mm) ∧
    (∀ e, (Except.ok Option.none : Except QueryError (Option Decoded)) ≠
      .error e) := by
  refine ⟨?_, ?_, ?_, ?_⟩
  · intro e he
    simp [queryOne, he]
  · intro seq hseq
    refine ⟨?_, ?_, ?_⟩
    · intro hh
      simp [queryOne, hseq, hh]
    · intro v hh
      simp [queryOne, hseq, hh]
    · intro m hh
      simp [queryOne, hseq, hh]
  · intro m mm hne
    cases hne
  · intro e hne
    cases hne

/-- Witness for C5: over the `with_select_sql` scenario, an empty result
set yields the "no rows" outcome, and a one-row result set yields exactly
that row's decoded scalar. -/
theorem queryOne_first_of_queryAll_witness :
    queryOne (.ok []) (.scalar (.base .bigInt)) = .ok Option.none ∧
    queryOne (.ok [[some "2"]]) (.scalar (.base .bigInt)) =
      .ok (some (.scalarD (.vInt 2))) :=
  ⟨((queryOne_first_of_queryAll (.ok []) (.scalar (.base .bigInt))).2.1
      [] (by rfl)).1 (by rfl),
    ((queryOne_first_of_queryAll (.ok [[some "2"]])
        (.scalar (.base .bigInt))).2.1 _ (by rfl)).2.1
      (.scalarD (.vInt 2)) (by rfl)⟩

/-- C4: SQL NULL at a column declared `Nullable` decodes to the absent
native value, and inserting a row that places NULL at a non-nullable
column is rejected by the database layer with a database error, never a
silent default. -/
theorem nullable_roundtrip (t : Table) (row : Row) (i : Nat)
    (hlen : row.length = t.columns.length)
    (hi : i < t.columns.length) (hir : i < row.length)
    (hnn : (t.columns.get ⟨i, hi⟩).ty.isNullable = false)
    (hnull : row.get ⟨i, hir⟩ = Option.none) :
    (∀ b, decodeValue (.nullable b) Option.none = .ok .vNone) ∧
    insertRow t row =
      .error (.database "null value in column violates not-null constraint")
    := by
  refine ⟨fun b => rfl, ?_⟩
  unfold insertRow
  rw [if_neg (by omega)]
  rw [if_pos]
  apply List.any_eq_true.mpr
  have hz : i < (t.columns.zip row).length := by
    rw [List.length_zip]
    exact lt_min hi hir
  refine ⟨(t.columns.zip row).get ⟨i, hz⟩, List.get_mem _ _ _, ?_⟩
  have hzi : (t.columns.zip row).get ⟨i, hz⟩ =
      (t.columns.get ⟨i, hi⟩, row.get ⟨i, hir⟩) := by
    simp [List.get_eq_getElem, List.getElem_zip]
  rw [hzi]
  simp only [List.get_eq_getElem] at hnn hnull
  simp [hnn, hnull]

/-- Witness for C4: the `users` table with a row carrying NULL in the
non-nullable `name` column — the nullable `age` decode of NULL is the
absent value, and the insert is rejected with a database error. -/
theorem nullable_roundtrip_witness :
    decodeValue (.nullable .smallInt) Option.none = .ok .vNone ∧
    insertRow usersTable [some "1", Option.none, Option.none] =
      .error (.database "null value in column violates not-null constraint")
    := by
  have h := nullable_roundtrip usersTable
    [some "1", Option.none, Option.none] 1 (by decide) (by decide) (by decide)
    (by decide) (by rfl)
  exact ⟨h.1 .smallInt, h.2⟩

/-- Decoding a row against a signature succeeds exactly ordinally: the
output has the signature's length and its i-th element is the decode of
the i-th raw value at the i-th SqlType. -/
theorem decodeValues_ok_get (tys : List SqlType) (row : Row) (vs : List Value)
    (h : decodeValues tys row = .ok vs) :
    vs.length = tys.length ∧ row.length = tys.length ∧
    ∀ i (h1 : i < tys.length) (h2 : i < row.length) (h3 : i < vs.length),
      decodeValue (tys.get ⟨i, h1⟩) (row.get ⟨i, h2⟩) = .ok (vs.get ⟨i, h3⟩)
    := by
  induction tys generalizing row vs with
  | nil =>
      cases row with
      | nil =>
          simp only [decodeValues] at h
          cases h
          exact ⟨rfl, rfl, fun i h1 => absurd h1 (Nat.not_lt_zero i)⟩
      | cons v row => simp [decodeValues] at h
  | cons ty tys ih =>
      cases row with
      | nil => simp [decodeValues] at h
      | cons v row =>
          simp only [decodeValues] at h
          cases hx : decodeValue ty v with
          | error m => rw [hx] at h; cases h
          | ok x =>
              rw [hx] at h
              cases hxs : decodeValues tys row with
              | error m => rw [hxs] at h; cases h
              | ok xs =>
                  rw [hxs] at h
                  cases h
                  obtain ⟨hl1, hl2, hget⟩ := ih row xs hxs
                  refine ⟨by simp [hl1], by simp [hl2], ?_⟩
                  intro i h1 h2 h3
                  cases i with
                  | zero => exact hx
                  | succ i =>
                      exact hget i (Nat.lt_of_succ_lt_succ h1)
                        (Nat.lt_of_succ_lt_succ h2) (Nat.lt_of_succ_lt_succ h3)

/-- C2: a selection over an explicit ordered column list has as its output
signature exactly the listed columns' SqlTypes in the order given, and a
decoded tuple's i-th field is the decode of the row's i-th raw value at the
i-th listed column's type — the caller's order, not the table's. -/
theorem select_signature_order (src : QuerySource) (cols : List Column)
    (q : QuerySource) (h : select src cols = some q) :
    signature q = cols.map (fun c => c.ty) ∧
    ∀ row vs, decodeValues (signature q) row = .ok vs →
      ∀ i (h1 : i < cols.length) (h2 : i < row.length) (h3 : i < vs.length),
        decodeValue (cols.get ⟨i, h1⟩).ty (row.get ⟨i, h2⟩) =
          .ok (vs.get ⟨i, h3⟩) := by
  have hq : q = .selection src cols := by
    unfold select at h
    split at h
    · exact (Option.some.inj h).symm
    · cases h
  subst hq
  refine ⟨rfl, ?_⟩
  intro row vs hdec i h1 h2 h3
  have hmap : i < (cols.map (fun c => c.ty)).length := by
    simpa using h1
  have hdec2 : decodeValues (cols.map (fun c => c.ty)) row = .ok vs := hdec
  have := (decodeValues_ok_get (cols.map (fun c => c.ty)) row vs hdec2).2.2
    i hmap h2 h3
  simpa [List.get_eq_getElem] using this

/-- Witness for C2: `users.select((name, age))` of the
`selecting_multiple_columns` test has signature `[VarChar, Nullable
SmallInt]` — the listed order, not the table's declaration order — and the
row `("Jim", 30)` decodes field-wise in that order. -/
theorem select_signature_order_witness :
    signature (QuerySource.selection (.table usersTable)
        [usersNameCol, usersAgeCol]) =
      [SqlType.base .varChar, SqlType.nullable .smallInt] ∧
    decodeValue ([usersNameCol, usersAgeCol].get ⟨0, by decide⟩).ty
        (([some "Jim", some "30"] : Row).get ⟨0, by decide⟩) =
      .ok (([.vStr "Jim", .vSome (.vInt 30)] : List Value).get
        ⟨0, by decide⟩) := by
  have h := select_signature_order (.table usersTable)
    [usersNameCol, usersAgeCol]
    (.selection (.table usersTable) [usersNameCol, usersAgeCol]) (by decide)
  exact ⟨h.1, h.2 [some "Jim", some "30"] [.vStr "Jim", .vSome (.vInt 30)]
    (by rfl) 0 (by decide) (by decide) (by decide)⟩

end Diesel
